import Mathlib

/-!
Shallow embedding of the EasyDelegate library (src/include/easydelegate.hpp).

Modelling conventions:
* Every C++ pointer (static function pointer, member function pointer,
  `this` pointer, and the address of a heap-allocated delegate object) is a
  natural number; `0` stands for the C++ null pointer `NULL`.
* An `Env α ρ` interprets the code of the program behind those pointers:
  `funcs p a` is the result of calling the static function at address `p`
  with argument tuple `a`, and `mfuncs m t a` is the result of calling the
  member function at address `m` on the object at address `t` with `a`.
  The argument tuple type `α` stands for the C++ `parameters...` pack and
  `ρ` for `returnType`.
* `throw` is modelled with `Except DelegateException`; the `assert` calls
  of the source are no-ops in a release (`NDEBUG`) build and are not
  modelled (the header documents the throw as the production contract).
* `DelegateSet` derives from `std::set<DelegateBase*>`; it is modelled as
  a list of `Entry` (delegate address paired with the pointed-to delegate),
  iteration order being the list order.  The erase-inside-iteration loops
  of the removal helpers are modelled as a single pass that drops every
  matching element, which is the membership semantics the loops implement.
-/

namespace EasyDelegate

/-- Exceptions of the library: `InvalidThisPointerException` and
`InvalidMethodPointerException` (easydelegate.hpp lines 65-88). -/
inductive DelegateException where
  | invalidThisPointer
  | invalidMethodPointer
  deriving DecidableEq, Repr

/-- Interpretation of function and member-function pointers: what the
target code at each address computes.  Address 0 is the null pointer; the
interpretation is total so that an (undefined-behavior) call through a
null pointer in the C++ source is modelled as an ordinary call that does
not signal any `DelegateException`. -/
structure Env (α ρ : Type) where
  funcs : Nat → α → ρ
  mfuncs : Nat → Nat → α → ρ

variable {α ρ : Type}

/-- `StaticDelegate` (easydelegate.hpp lines 140-213): stores only
`mProcAddress`, the static function pointer. -/
structure StaticDelegate where
  mProcAddress : Nat
  deriving DecidableEq, Repr

/-- `MemberDelegate` (easydelegate.hpp lines 220-313): stores `mThisPtr`
and `mProcAddress` (the member function pointer). -/
structure MemberDelegate where
  mThisPtr : Nat
  mProcAddress : Nat
  deriving DecidableEq, Repr

/-- `StaticDelegate::invoke` (lines 175-183): throws
`InvalidMethodPointerException` when `mProcAddress` is null, otherwise
calls the stored function pointer with the parameters. -/
def StaticDelegate.invoke (env : Env α ρ) (d : StaticDelegate) (params : α) :
    Except DelegateException ρ :=
  if d.mProcAddress = 0 then
    Except.error DelegateException.invalidMethodPointer
  else
    Except.ok (env.funcs d.mProcAddress params)

/-- `MemberDelegate::invoke` (lines 261-274): throws
`InvalidThisPointerException` when `mThisPtr` is null, then
`InvalidMethodPointerException` when `mProcAddress` is null, otherwise
calls the member pointer on the stored object. -/
def MemberDelegate.invoke (env : Env α ρ) (d : MemberDelegate) (params : α) :
    Except DelegateException ρ :=
  if d.mThisPtr = 0 then
    Except.error DelegateException.invalidThisPointer
  else if d.mProcAddress = 0 then
    Except.error DelegateException.invalidMethodPointer
  else
    Except.ok (env.mfuncs d.mProcAddress d.mThisPtr params)

/-- `StaticDelegate::has_thispointer` (line 192): always false. -/
def StaticDelegate.has_thispointer (_d : StaticDelegate) (_thisPointer : Nat) : Bool :=
  false

/-- `StaticDelegate::has_procaddress` (line 199): pointer equality with
the stored static function pointer. -/
def StaticDelegate.has_procaddress (d : StaticDelegate) (procAddress : Nat) : Bool :=
  d.mProcAddress == procAddress

/-- `MemberDelegate::has_thispointer` (line 282): pointer equality with
the stored this pointer. -/
def MemberDelegate.has_thispointer (d : MemberDelegate) (thisPointer : Nat) : Bool :=
  d.mThisPtr == thisPointer

/-- `MemberDelegate::has_procaddress` for a member function pointer
(line 289): pointer equality with the stored member pointer. -/
def MemberDelegate.has_procaddress (d : MemberDelegate) (procAddress : Nat) : Bool :=
  d.mProcAddress == procAddress

/-- `MemberDelegate::has_procaddress` overload for a static function
pointer (line 297): always false. -/
def MemberDelegate.has_procaddress_static (_d : MemberDelegate) (_procAddress : Nat) : Bool :=
  false

/-- `StaticDelegate::operator==` against a StaticDelegate of the same
signature (line 202): compares the stored function pointers. -/
def StaticDelegate.eqStatic (d other : StaticDelegate) : Bool :=
  other.mProcAddress == d.mProcAddress

/-- `StaticDelegate::operator==` against any MemberDelegate (line 205):
always false. -/
def StaticDelegate.eqMember (_d : StaticDelegate) (_other : MemberDelegate) : Bool :=
  false

/-- `MemberDelegate::operator==` against a MemberDelegate of the same
class and signature (line 300): compares only the stored member pointers;
the bound instances are not compared. -/
def MemberDelegate.eqMember (d other : MemberDelegate) : Bool :=
  other.mProcAddress == d.mProcAddress

/-- `MemberDelegate::operator==` against any StaticDelegate (line 306):
always false. -/
def MemberDelegate.eqStatic (_d : MemberDelegate) (_other : StaticDelegate) : Bool :=
  false

/-- `DelegateBase` (lines 510-589), the common base stored in a
`DelegateSet`: at a fixed signature it is either a `StaticDelegate` or a
`MemberDelegate`. -/
inductive DelegateBase where
  | static (d : StaticDelegate)
  | member (d : MemberDelegate)
  deriving DecidableEq, Repr

/-- `GenericDelegate::mIsMemberDelegate` (line 105), as set by the
constructors of the two concrete delegate types. -/
def DelegateBase.mIsMemberDelegate : DelegateBase → Bool
  | .static _ => false
  | .member _ => true

/-- Virtual dispatch of `DelegateBase::invoke` (line 587) to the concrete
delegate's `invoke`. -/
def DelegateBase.invoke (env : Env α ρ) : DelegateBase → α → Except DelegateException ρ
  | .static d, a => d.invoke env a
  | .member d, a => d.invoke env a

/-- Virtual dispatch of `DelegateBase::has_thispointer` (line 573). -/
def DelegateBase.has_thispointer : DelegateBase → Nat → Bool
  | .static d, p => d.has_thispointer p
  | .member d, p => d.has_thispointer p

/-- Virtual dispatch of `DelegateBase::has_procaddress` for a static
function pointer (line 543). -/
def DelegateBase.has_procaddress_static : DelegateBase → Nat → Bool
  | .static d, p => d.has_procaddress p
  | .member d, p => MemberDelegate.has_procaddress_static d p

/-- `DelegateBase::has_procaddress<className>` for a member function
pointer (lines 554-564): returns false when `mIsMemberDelegate` is false,
otherwise casts to `MemberDelegate` and compares there. -/
def DelegateBase.has_procaddress_member : DelegateBase → Nat → Bool
  | .static _, _ => false
  | .member d, p => d.has_procaddress p

/-- The `operator==` overload set of the two delegate types (lines
202-208 and 300-306), combined at a single signature and class type. -/
def DelegateBase.eq : DelegateBase → DelegateBase → Bool
  | .static a, .static b => a.eqStatic b
  | .static a, .member b => a.eqMember b
  | .member a, .member b => a.eqMember b
  | .member a, .static b => a.eqStatic b

/-- One element of a `DelegateSet`: the address of the heap-allocated
delegate (the `DelegateBase*` stored in the `std::set`) together with the
delegate it points to. -/
structure Entry where
  addr : Nat
  del : DelegateBase
  deriving DecidableEq, Repr

/-- `DelegateSet` (lines 325-502): a set of `DelegateBase*`, modelled as
a list of entries in iteration order. -/
abbrev DelegateSet := List Entry

/-- `DelegateSet::invoke(parameters...)` (lines 349-353): invoke every
member in iteration order, ignoring return values; an exception thrown by
a member propagates out of the unguarded loop. -/
def DelegateSet.invoke (env : Env α ρ) : DelegateSet → α → Except DelegateException Unit
  | [], _ => Except.ok ()
  | e :: rest, a =>
    match e.del.invoke env a with
    | .error ex => .error ex
    | .ok _ => DelegateSet.invoke env rest a

/-- `DelegateSet::invoke(set<returnType>& out, parameters...)` (lines
367-371): invoke every member in iteration order, inserting each return
value into `out` (`out` is a `std::set`, modelled as a `Finset`); an
exception thrown by a member propagates out of the unguarded loop. -/
def DelegateSet.invokeCollect [DecidableEq ρ] (env : Env α ρ) :
    DelegateSet → Finset ρ → α → Except DelegateException (Finset ρ)
  | [], out, _ => Except.ok out
  | e :: rest, out, a =>
    match e.del.invoke env a with
    | .error ex => .error ex
    | .ok v => DelegateSet.invokeCollect env rest (insert v out) a

/-- `DelegateSet::remove_delegate_procaddress<className>` (lines
399-416): drop every member for which the member-pointer
`has_procaddress` check holds.  The `deleteInstances`/`out` bookkeeping
only disposes of the dropped delegates and does not affect membership. -/
def DelegateSet.remove_delegate_procaddress_member (procAddress : Nat) :
    DelegateSet → DelegateSet
  | [] => []
  | e :: rest =>
    if e.del.has_procaddress_member procAddress then
      DelegateSet.remove_delegate_procaddress_member procAddress rest
    else
      e :: DelegateSet.remove_delegate_procaddress_member procAddress rest

/-- `DelegateSet::remove_delegate_procaddress` for a static function
pointer (lines 429-445): drop every member for which the static-pointer
`has_procaddress` check holds. -/
def DelegateSet.remove_delegate_procaddress_static (procAddress : Nat) :
    DelegateSet → DelegateSet
  | [] => []
  | e :: rest =>
    if e.del.has_procaddress_static procAddress then
      DelegateSet.remove_delegate_procaddress_static procAddress rest
    else
      e :: DelegateSet.remove_delegate_procaddress_static procAddress rest

/-- `DelegateSet::remove_delegate_this` (lines 458-474): drop every
member with `mIsMemberDelegate && has_thispointer(thisPtr)`. -/
def DelegateSet.remove_delegate_this (thisPtr : Nat) : DelegateSet → DelegateSet
  | [] => []
  | e :: rest =>
    if e.del.mIsMemberDelegate && e.del.has_thispointer thisPtr then
      DelegateSet.remove_delegate_this thisPtr rest
    else
      e :: DelegateSet.remove_delegate_this thisPtr rest

/-- Result of `DelegateSet::remove_delegate`: the surviving set, the list
of delegate addresses passed to `delete`, and the returned pointer
(`none` models a returned `NULL`). -/
structure RemoveResult where
  kept : DelegateSet
  freed : List Nat
  ret : Option Nat
  deriving DecidableEq, Repr

/-- `DelegateSet::remove_delegate` (lines 484-501): scan for the entry
whose address equals the given pointer; on a match, `delete` it when
`deleteInstance` is true, erase it, and `return current` — the source
returns the matched pointer unconditionally (line 496), also in the
`deleteInstance` branch where its own documentation (lines 481-482) says
NULL is returned.  `NULL` is returned only when nothing matched. -/
def DelegateSet.remove_delegate : DelegateSet → Nat → Bool → RemoveResult
  | [], _, _ => ⟨[], [], none⟩
  | e :: rest, target, deleteInstance =>
    if e.addr == target then
      ⟨rest, if deleteInstance then [e.addr] else [], some e.addr⟩
    else
      let r := DelegateSet.remove_delegate rest target deleteInstance
      ⟨e :: r.kept, r.freed, r.ret⟩

/-- Instrumentation for the bulk-invocation theorems: the underlying
function call a delegate's `invoke` performs when it does not throw
(`none` when the null checks throw before any call is made). -/
inductive Call (α : Type) where
  | static (procAddress : Nat) (args : α)
  | member (procAddress : Nat) (thisPtr : Nat) (args : α)
  deriving DecidableEq

/-- The underlying call performed by `DelegateBase.invoke`, read off the
null checks of the two `invoke` bodies. -/
def DelegateBase.callOf : DelegateBase → α → Option (Call α)
  | .static d, a =>
    if d.mProcAddress = 0 then none else some (Call.static d.mProcAddress a)
  | .member d, a =>
    if d.mThisPtr = 0 ∨ d.mProcAddress = 0 then none
    else some (Call.member d.mProcAddress d.mThisPtr a)

/-- Trace semantics of the bulk-invocation loop: the list of underlying
calls made, in order, and the exception (if any) that aborted the loop. -/
def DelegateSet.invokeCalls (env : Env α ρ) :
    DelegateSet → α → List (Call α) × Option DelegateException
  | [], _ => ([], none)
  | e :: rest, a =>
    match e.del.invoke env a with
    | .error ex => ([], some ex)
    | .ok _ =>
      let r := DelegateSet.invokeCalls env rest a
      ((e.del.callOf a).toList ++ r.1, r.2)

/-- Whether a delegate's `invoke` returns normally (no exception). -/
def DelegateBase.invokeSucceeds (env : Env α ρ) (b : DelegateBase) (a : α) : Bool :=
  match b.invoke env a with
  | .ok _ => true
  | .error _ => false

/-- The value a delegate's `invoke` returns when it does not throw. -/
def DelegateBase.returnValue (env : Env α ρ) : DelegateBase → α → ρ
  | .static d, a => env.funcs d.mProcAddress a
  | .member d, a => env.mfuncs d.mProcAddress d.mThisPtr a

/-- `CachedStaticDelegate` (lines 733-818): stores the function pointer
and the argument tuple captured at construction. -/
structure CachedStaticDelegate (α : Type) where
  mProcAddress : Nat
  mParameters : α

/-- `CachedStaticDelegate::performCachedCall` (lines 806-811): calls the
stored function pointer on the cached parameters with no null check of
any kind. -/
def CachedStaticDelegate.performCachedCall (env : Env α ρ) (d : CachedStaticDelegate α) :
    Except DelegateException ρ :=
  Except.ok (env.funcs d.mProcAddress d.mParameters)

/-- `CachedStaticDelegate::dispatch` (lines 762-765). -/
def CachedStaticDelegate.dispatch (env : Env α ρ) (d : CachedStaticDelegate α) :
    Except DelegateException ρ :=
  d.performCachedCall env

/-- `CachedStaticDelegate::generic_dispatch` (line 773): dispatch,
discarding the return value. -/
def CachedStaticDelegate.generic_dispatch (env : Env α ρ) (d : CachedStaticDelegate α) :
    Except DelegateException Unit :=
  (d.dispatch env).map fun _ => ()

/-- `CachedStaticDelegate::has_procaddress` (line 784): always false,
even for the delegate's own stored function pointer. -/
def CachedStaticDelegate.has_procaddress (_d : CachedStaticDelegate α)
    (_funcPtr : Nat) : Bool :=
  false

/-- `CachedMemberDelegate` (lines 629-728): stores the this pointer, the
member function pointer and the argument tuple captured at
construction. -/
structure CachedMemberDelegate (α : Type) where
  mThisPtr : Nat
  mProcAddress : Nat
  mParameters : α

/-- `CachedMemberDelegate::performCachedCall` (lines 705-714): throws
`InvalidThisPointerException` when `mThisPtr` is null, then calls the
stored member pointer on the cached parameters; the member pointer itself
is never checked for null. -/
def CachedMemberDelegate.performCachedCall (env : Env α ρ) (d : CachedMemberDelegate α) :
    Except DelegateException ρ :=
  if d.mThisPtr = 0 then
    Except.error DelegateException.invalidThisPointer
  else
    Except.ok (env.mfuncs d.mProcAddress d.mThisPtr d.mParameters)

/-- `CachedMemberDelegate::dispatch` (lines 661-664). -/
def CachedMemberDelegate.dispatch (env : Env α ρ) (d : CachedMemberDelegate α) :
    Except DelegateException ρ :=
  d.performCachedCall env

/-- `CachedMemberDelegate::generic_dispatch` (line 672): dispatch,
discarding the return value. -/
def CachedMemberDelegate.generic_dispatch (env : Env α ρ) (d : CachedMemberDelegate α) :
    Except DelegateException Unit :=
  (d.dispatch env).map fun _ => ()

/-- `CachedMemberDelegate::has_procaddress` (line 683). -/
def CachedMemberDelegate.has_procaddress (d : CachedMemberDelegate α)
    (funcPtr : Nat) : Bool :=
  funcPtr == d.mProcAddress

/-- `CachedMemberDelegate::has_thispointer` (line 692). -/
def CachedMemberDelegate.has_thispointer (d : CachedMemberDelegate α)
    (thisPointer : Nat) : Bool :=
  thisPointer == d.mThisPtr

/-- A concrete interpretation used by the closed witness theorems:
static address `p` applied to `a` yields `p + a`; member address `m` on
object `t` applied to `a` yields `m * 100 + t * 10 + a`. -/
def envC : Env Nat Nat :=
  ⟨fun p a => p + a, fun m t a => m * 100 + t * 10 + a⟩

/-- C3: invoking a `StaticDelegate` whose stored function pointer is null
throws `InvalidMethodPointerException`; invoking a `MemberDelegate` whose
stored this pointer is null throws `InvalidThisPointerException`; and
invoking a `MemberDelegate` with a live this pointer but a null member
pointer throws `InvalidMethodPointerException` — in every case without
calling through the null target. -/
theorem invoke_null_target_throws (env : Env α ρ) (a : α) (t m : Nat) :
    StaticDelegate.invoke env ⟨0⟩ a =
        Except.error DelegateException.invalidMethodPointer
    ∧ MemberDelegate.invoke env ⟨0, m⟩ a =
        Except.error DelegateException.invalidThisPointer
    ∧ (t ≠ 0 → MemberDelegate.invoke env ⟨t, 0⟩ a =
        Except.error DelegateException.invalidMethodPointer) := by
  refine ⟨rfl, rfl, fun ht => ?_⟩
  simp [MemberDelegate.invoke, ht]

/-- Witness for `invoke_null_target_throws` at concrete inputs. -/
theorem invoke_null_target_throws_witness :
    StaticDelegate.invoke envC ⟨0⟩ 3 =
        Except.error DelegateException.invalidMethodPointer
    ∧ MemberDelegate.invoke envC ⟨0, 7⟩ 3 =
        Except.error DelegateException.invalidThisPointer
    ∧ MemberDelegate.invoke envC ⟨2, 0⟩ 3 =
        Except.error DelegateException.invalidMethodPointer :=
  ⟨(invoke_null_target_throws envC 3 2 7).1,
   (invoke_null_target_throws envC 3 2 7).2.1,
   (invoke_null_target_throws envC 3 2 7).2.2 (by decide)⟩

/-- C4: with a non-null function pointer `p`, `StaticDelegate(p).invoke a`
returns exactly the target function's result `env.funcs p a`; with a
non-null this pointer `t` and member pointer `m`,
`MemberDelegate(t, m).invoke a` returns exactly the member call's result
`env.mfuncs m t a`. -/
theorem invoke_forwards_to_target (env : Env α ρ) (a : α) (p t m : Nat)
    (hp : p ≠ 0) (ht : t ≠ 0) (hm : m ≠ 0) :
    StaticDelegate.invoke env ⟨p⟩ a = Except.ok (env.funcs p a)
    ∧ MemberDelegate.invoke env ⟨t, m⟩ a = Except.ok (env.mfuncs m t a) := by
  constructor
  · simp [StaticDelegate.invoke, hp]
  · simp [MemberDelegate.invoke, ht, hm]

/-- Witness for `invoke_forwards_to_target` at concrete inputs:
`envC.funcs 5 3 = 8` and `envC.mfuncs 7 2 3 = 723`. -/
theorem invoke_forwards_to_target_witness :
    StaticDelegate.invoke envC ⟨5⟩ 3 = Except.ok 8
    ∧ MemberDelegate.invoke envC ⟨2, 7⟩ 3 = Except.ok 723 :=
  ⟨(invoke_forwards_to_target envC 3 5 2 7 (by decide) (by decide) (by decide)).1,
   (invoke_forwards_to_target envC 3 5 2 7 (by decide) (by decide) (by decide)).2⟩

/-- C5: delegate equality holds iff both sides are StaticDelegates with
equal function pointers or both are MemberDelegates with equal member
pointers; two MemberDelegates bound to different instances but sharing a
member pointer compare equal, and every static-vs-member comparison is
unequal. -/
theorem delegate_equality_semantics (d1 d2 : DelegateBase) :
    (DelegateBase.eq d1 d2 = true ↔
      (∃ a b, d1 = DelegateBase.static a ∧ d2 = DelegateBase.static b ∧
        a.mProcAddress = b.mProcAddress)
      ∨ (∃ a b, d1 = DelegateBase.member a ∧ d2 = DelegateBase.member b ∧
        a.mProcAddress = b.mProcAddress))
    ∧ (∀ t1 t2 m, DelegateBase.eq (DelegateBase.member ⟨t1, m⟩)
        (DelegateBase.member ⟨t2, m⟩) = true)
    ∧ (∀ a b, DelegateBase.eq (DelegateBase.static a) (DelegateBase.member b) = false
        ∧ DelegateBase.eq (DelegateBase.member b) (DelegateBase.static a) = false) := by
  refine ⟨?_, ?_, ?_⟩
  · cases d1 with
    | static a =>
      cases d2 with
      | static b =>
        simp only [DelegateBase.eq, StaticDelegate.eqStatic, beq_iff_eq]
        constructor
        · intro h
          exact Or.inl ⟨a, b, rfl, rfl, h.symm⟩
        · intro h
          rcases h with ⟨a2, b2, ha, hb, hp⟩ | ⟨a2, b2, ha, hb, hp⟩
          · injection ha with ha2
            injection hb with hb2
            rw [← ha2, ← hb2] at hp
            exact hp.symm
          · simp at ha
      | member b =>
        simp only [DelegateBase.eq, StaticDelegate.eqMember]
        constructor
        · intro h
          cases h
        · intro h
          rcases h with ⟨a2, b2, ha, hb, hp⟩ | ⟨a2, b2, ha, hb, hp⟩
          · simp at hb
          · simp at ha
    | member a =>
      cases d2 with
      | static b =>
        simp only [DelegateBase.eq, MemberDelegate.eqStatic]
        constructor
        · intro h
          cases h
        · intro h
          rcases h with ⟨a2, b2, ha, hb, hp⟩ | ⟨a2, b2, ha, hb, hp⟩
          · simp at ha
          · simp at hb
      | member b =>
        simp only [DelegateBase.eq, MemberDelegate.eqMember, beq_iff_eq]
        constructor
        · intro h
          exact Or.inr ⟨a, b, rfl, rfl, h.symm⟩
        · intro h
          rcases h with ⟨a2, b2, ha, hb, hp⟩ | ⟨a2, b2, ha, hb, hp⟩
          · simp at ha
          · injection ha with ha2
            injection hb with hb2
            rw [← ha2, ← hb2] at hp
            exact hp.symm
  · intro t1 t2 m
    simp [DelegateBase.eq, MemberDelegate.eqMember]
  · intro a b
    exact ⟨rfl, rfl⟩

/-- Witness for `delegate_equality_semantics` at concrete inputs: two
member delegates on different instances (this pointers 1 and 2) with the
same member pointer 9 compare equal; a static and a member delegate never
compare equal. -/
theorem delegate_equality_semantics_witness :
    DelegateBase.eq (DelegateBase.member ⟨1, 9⟩) (DelegateBase.member ⟨2, 9⟩) = true
    ∧ DelegateBase.eq (DelegateBase.static ⟨9⟩) (DelegateBase.member ⟨1, 9⟩) = false :=
  ⟨(delegate_equality_semantics (DelegateBase.member ⟨1, 9⟩)
      (DelegateBase.member ⟨2, 9⟩)).2.1 1 2 9,
   ((delegate_equality_semantics (DelegateBase.static ⟨9⟩)
      (DelegateBase.member ⟨1, 9⟩)).2.2 ⟨9⟩ ⟨1, 9⟩).1⟩

/-- C10: `CachedStaticDelegate::has_procaddress` returns false for every
queried function pointer, including the delegate's own stored function
pointer, so a cached static delegate is never matched by its own
function address. -/
theorem cached_static_has_procaddress_false (d : CachedStaticDelegate α) (p : Nat) :
    CachedStaticDelegate.has_procaddress d p = false
    ∧ CachedStaticDelegate.has_procaddress d d.mProcAddress = false :=
  ⟨rfl, rfl⟩

/-- C1 evaluation at the failing input: with the set holding one delegate
at address 1, `remove_delegate(address 1, deleteInstance := true)` erases
and frees the delegate but still returns the (now dangling) pointer
`some 1` instead of the NULL its own documentation promises; with
`deleteInstance := false` it returns the pointer without freeing it; for
an absent pointer it returns NULL. -/
theorem remove_delegate_return_eval :
    DelegateSet.remove_delegate [⟨1, DelegateBase.static ⟨5⟩⟩] 1 true =
      ⟨[], [1], some 1⟩
    ∧ DelegateSet.remove_delegate [⟨1, DelegateBase.static ⟨5⟩⟩] 1 false =
      ⟨[], [], some 1⟩
    ∧ DelegateSet.remove_delegate [⟨1, DelegateBase.static ⟨5⟩⟩] 2 true =
      ⟨[⟨1, DelegateBase.static ⟨5⟩⟩], [], none⟩ := by
  refine ⟨rfl, rfl, rfl⟩

/-- C2 counterexample: replaying a cached delegate whose stored function
pointer (CachedStaticDelegate) or stored member pointer
(CachedMemberDelegate, live instance) is null does NOT signal any
exception — dispatch calls straight through the null target, unlike the
non-deferred delegates. -/
theorem cached_dispatch_no_null_pointer_check :
    CachedStaticDelegate.dispatch envC ⟨0, 3⟩ = Except.ok 3
    ∧ CachedMemberDelegate.dispatch envC ⟨2, 0, 3⟩ = Except.ok 23
    ∧ CachedStaticDelegate.generic_dispatch envC ⟨0, 3⟩ = Except.ok ()
    ∧ CachedMemberDelegate.generic_dispatch envC ⟨2, 0, 3⟩ = Except.ok () :=
  ⟨rfl, rfl, rfl, rfl⟩

/-- C2 amended: of the null checks performed by the non-deferred
delegates, the cached delegates retain only the this-pointer check:
`CachedMemberDelegate.dispatch` (and `generic_dispatch`) with a null
stored instance signals `InvalidThisPointerException`; with a live
instance the member pointer is never checked and the call proceeds; and
`CachedStaticDelegate.dispatch` performs no check at all, always calling
the stored function pointer. -/
theorem cached_dispatch_null_checks (env : Env α ρ)
    (d : CachedMemberDelegate α) (c : CachedStaticDelegate α) :
    (d.mThisPtr = 0 →
      d.dispatch env = Except.error DelegateException.invalidThisPointer
      ∧ d.generic_dispatch env = Except.error DelegateException.invalidThisPointer)
    ∧ (d.mThisPtr ≠ 0 →
      d.dispatch env = Except.ok (env.mfuncs d.mProcAddress d.mThisPtr d.mParameters))
    ∧ c.dispatch env = Except.ok (env.funcs c.mProcAddress c.mParameters)
    ∧ c.generic_dispatch env = Except.ok () := by
  refine ⟨fun h0 => ?_, fun hne => ?_, rfl, rfl⟩
  · have hd : d.dispatch env = Except.error DelegateException.invalidThisPointer := by
      unfold CachedMemberDelegate.dispatch CachedMemberDelegate.performCachedCall
      rw [if_pos h0]
    refine ⟨hd, ?_⟩
    unfold CachedMemberDelegate.generic_dispatch
    rw [hd]
    rfl
  · unfold CachedMemberDelegate.dispatch CachedMemberDelegate.performCachedCall
    rw [if_neg hne]

/-- The member-pointer removal keeps exactly the entries whose
member-pointer `has_procaddress` check fails. -/
theorem remove_member_eq_filter (p : Nat) (s : DelegateSet) :
    DelegateSet.remove_delegate_procaddress_member p s =
      s.filter fun e => !(e.del.has_procaddress_member p) := by
  induction s with
  | nil => rfl
  | cons x rest ih =>
    by_cases h : x.del.has_procaddress_member p
    · simp [DelegateSet.remove_delegate_procaddress_member, h, ih, List.filter_cons]
    · simp [DelegateSet.remove_delegate_procaddress_member, h, ih, List.filter_cons]

/-- The static-pointer removal keeps exactly the entries whose
static-pointer `has_procaddress` check fails. -/
theorem remove_static_eq_filter (p : Nat) (s : DelegateSet) :
    DelegateSet.remove_delegate_procaddress_static p s =
      s.filter fun e => !(e.del.has_procaddress_static p) := by
  induction s with
  | nil => rfl
  | cons x rest ih =>
    by_cases h : x.del.has_procaddress_static p
    · simp [DelegateSet.remove_delegate_procaddress_static, h, ih, List.filter_cons]
    · simp [DelegateSet.remove_delegate_procaddress_static, h, ih, List.filter_cons]

/-- The this-pointer removal keeps exactly the entries that are not
member delegates bound to the given this pointer. -/
theorem remove_this_eq_filter (t : Nat) (s : DelegateSet) :
    DelegateSet.remove_delegate_this t s =
      s.filter fun e => !(e.del.mIsMemberDelegate && e.del.has_thispointer t) := by
  induction s with
  | nil => rfl
  | cons x rest ih =>
    simp only [DelegateSet.remove_delegate_this, List.filter_cons, ih]
    cases hA : x.del.mIsMemberDelegate <;> cases hB : x.del.has_thispointer t <;> simp

/-- C6: `remove_delegate_procaddress` with a member pointer removes
exactly the MemberDelegates whose stored member pointer equals it —
regardless of the bound instance — and never a StaticDelegate;
`remove_delegate_this` removes exactly the MemberDelegates whose stored
this pointer equals the given instance, and never a StaticDelegate. -/
theorem removal_by_member_pointer_and_instance (p t : Nat) (s : DelegateSet) (e : Entry) :
    (e ∈ DelegateSet.remove_delegate_procaddress_member p s ↔
      e ∈ s ∧ e.del.has_procaddress_member p = false)
    ∧ (∀ td mp, DelegateBase.has_procaddress_member
        (DelegateBase.member ⟨td, mp⟩) p = (mp == p))
    ∧ (∀ sd, DelegateBase.has_procaddress_member (DelegateBase.static sd) p = false)
    ∧ (e ∈ DelegateSet.remove_delegate_this t s ↔
      e ∈ s ∧ (e.del.mIsMemberDelegate && e.del.has_thispointer t) = false)
    ∧ (∀ td mp, (DelegateBase.mIsMemberDelegate (DelegateBase.member ⟨td, mp⟩) &&
        DelegateBase.has_thispointer (DelegateBase.member ⟨td, mp⟩) t) = (td == t))
    ∧ (∀ sd, (DelegateBase.mIsMemberDelegate (DelegateBase.static sd) &&
        DelegateBase.has_thispointer (DelegateBase.static sd) t) = false) := by
  refine ⟨?_, fun td mp => rfl, fun sd => rfl, ?_, ?_, fun sd => rfl⟩
  · rw [remove_member_eq_filter]
    simp only [List.mem_filter, Bool.not_eq_true']
  · rw [remove_this_eq_filter]
    simp only [List.mem_filter, Bool.not_eq_true']
  · intro td mp
    simp [DelegateBase.mIsMemberDelegate, DelegateBase.has_thispointer,
      MemberDelegate.has_thispointer]

/-- A delegate set used by the closed witness theorems: two member
delegates on different instances (this pointers 1 and 2) sharing member
pointer 9, a static delegate with function pointer 9, and a member
delegate on instance 1 with member pointer 8. -/
def c6Set : DelegateSet :=
  [⟨10, DelegateBase.member ⟨1, 9⟩⟩, ⟨11, DelegateBase.member ⟨2, 9⟩⟩,
   ⟨12, DelegateBase.static ⟨9⟩⟩, ⟨13, DelegateBase.member ⟨1, 8⟩⟩]

/-- Witness for `removal_by_member_pointer_and_instance`: in `c6Set`, the
static delegate survives removal by member pointer 9, the member delegate
with the other member pointer survives too, while removal by this
pointer 2 keeps the member delegate bound to instance 1. -/
theorem removal_by_member_pointer_and_instance_witness :
    (⟨12, DelegateBase.static ⟨9⟩⟩ : Entry) ∈
      DelegateSet.remove_delegate_procaddress_member 9 c6Set
    ∧ (⟨13, DelegateBase.member ⟨1, 8⟩⟩ : Entry) ∈
      DelegateSet.remove_delegate_procaddress_member 9 c6Set
    ∧ (⟨10, DelegateBase.member ⟨1, 9⟩⟩ : Entry) ∈
      DelegateSet.remove_delegate_this 2 c6Set :=
  ⟨(removal_by_member_pointer_and_instance 9 2 c6Set
      ⟨12, DelegateBase.static ⟨9⟩⟩).1.mpr ⟨by decide, rfl⟩,
   (removal_by_member_pointer_and_instance 9 2 c6Set
      ⟨13, DelegateBase.member ⟨1, 8⟩⟩).1.mpr ⟨by decide, rfl⟩,
   (removal_by_member_pointer_and_instance 9 2 c6Set
      ⟨10, DelegateBase.member ⟨1, 9⟩⟩).2.2.2.1.mpr ⟨by decide, rfl⟩⟩

/-- No entry of a delegate set whose members all fail the static-pointer
`has_procaddress` check for `f` ever produces the underlying call
`Call.static f a` during bulk invocation. -/
theorem static_call_not_in_trace (env : Env α ρ) (f : Nat) (a : α) :
    ∀ s : DelegateSet, (∀ e ∈ s, e.del.has_procaddress_static f = false) →
      Call.static f a ∉ (DelegateSet.invokeCalls env s a).1 := by
  intro s
  induction s with
  | nil =>
    intro _
    simp [DelegateSet.invokeCalls]
  | cons x rest ih =>
    intro h
    have hx : x.del.has_procaddress_static f = false := h x (List.mem_cons_self x rest)
    have hrest : ∀ e ∈ rest, e.del.has_procaddress_static f = false :=
      fun e he => h e (List.mem_cons_of_mem x he)
    cases hinv : x.del.invoke env a with
    | error ex =>
      simp [DelegateSet.invokeCalls, hinv]
    | ok v =>
      simp only [DelegateSet.invokeCalls, hinv]
      intro hmem
      rw [List.mem_append] at hmem
      rcases hmem with hcall | htrace
      · cases hdel : x.del with
        | static d =>
          rw [hdel] at hx
          simp only [DelegateBase.has_procaddress_static,
            StaticDelegate.has_procaddress, beq_eq_false_iff_ne, ne_eq] at hx
          rw [hdel] at hcall
          simp only [DelegateBase.callOf] at hcall
          by_cases h0 : d.mProcAddress = 0
          · rw [if_pos h0] at hcall
            simp at hcall
          · rw [if_neg h0] at hcall
            simp only [Option.toList_some, List.mem_singleton, Call.static.injEq] at hcall
            exact hx hcall.1.symm
        | member d =>
          rw [hdel] at hcall
          simp only [DelegateBase.callOf] at hcall
          by_cases h0 : d.mThisPtr = 0 ∨ d.mProcAddress = 0
          · rw [if_pos h0] at hcall
            simp at hcall
          · rw [if_neg h0] at hcall
            simp at hcall
      · exact ih hrest htrace

/-- C7: after `remove_delegate_procaddress` with static function pointer
`f`, no member of the surviving set passes the static-pointer
`has_procaddress` check for `f` (no surviving StaticDelegate stores
`f`), and a subsequent bulk invocation performs no underlying call to
`f`. -/
theorem remove_static_then_never_called (f : Nat) (s : DelegateSet)
    (env : Env α ρ) (a : α) :
    ((DelegateSet.remove_delegate_procaddress_static f s).filter
      fun e => e.del.has_procaddress_static f) = []
    ∧ Call.static f a ∉
      (DelegateSet.invokeCalls env
        (DelegateSet.remove_delegate_procaddress_static f s) a).1 := by
  constructor
  · rw [remove_static_eq_filter, List.filter_filter]
    simp
  · refine static_call_not_in_trace env f a _ ?_
    intro e he
    rw [remove_static_eq_filter, List.mem_filter] at he
    simpa using he.2

/-- Witness for `remove_static_then_never_called`: removing function
pointer 5 from a set holding two static delegates on 5, one on 4, and a
member delegate, then invoking, never calls 5. -/
theorem remove_static_then_never_called_witness :
    Call.static 5 3 ∉
      (DelegateSet.invokeCalls envC
        (DelegateSet.remove_delegate_procaddress_static 5
          [⟨20, DelegateBase.static ⟨5⟩⟩, ⟨21, DelegateBase.static ⟨4⟩⟩,
           ⟨22, DelegateBase.member ⟨1, 5⟩⟩, ⟨23, DelegateBase.static ⟨5⟩⟩]) 3).1 :=
  (remove_static_then_never_called 5
    [⟨20, DelegateBase.static ⟨5⟩⟩, ⟨21, DelegateBase.static ⟨4⟩⟩,
     ⟨22, DelegateBase.member ⟨1, 5⟩⟩, ⟨23, DelegateBase.static ⟨5⟩⟩] envC 3).2

/-- Witness for `cached_dispatch_null_checks` at concrete inputs. -/
theorem cached_dispatch_null_checks_witness :
    CachedMemberDelegate.dispatch envC ⟨0, 7, 3⟩ =
      Except.error DelegateException.invalidThisPointer
    ∧ CachedMemberDelegate.dispatch envC ⟨2, 7, 3⟩ = Except.ok 723
    ∧ CachedStaticDelegate.dispatch envC ⟨5, 3⟩ = Except.ok 8 :=
  ⟨((cached_dispatch_null_checks envC ⟨0, 7, 3⟩ ⟨5, 3⟩).1 rfl).1,
   (cached_dispatch_null_checks envC ⟨2, 7, 3⟩ ⟨5, 3⟩).2.1 (by decide),
   (cached_dispatch_null_checks envC ⟨2, 7, 3⟩ ⟨5, 3⟩).2.2.1⟩

/-- A delegate whose `invoke` returns normally returns some value. -/
theorem invoke_eq_ok_of_succeeds (env : Env α ρ) (b : DelegateBase) (a : α)
    (h : b.invokeSucceeds env a = true) :
    ∃ v, b.invoke env a = Except.ok v := by
  cases hinv : b.invoke env a with
  | ok v => exact ⟨v, rfl⟩
  | error ex =>
    unfold DelegateBase.invokeSucceeds at h
    rw [hinv] at h
    simp at h

/-- A delegate whose `invoke` returns normally returns exactly the
underlying target's result. -/
theorem invoke_eq_ok_returnValue (env : Env α ρ) (b : DelegateBase) (a : α)
    (h : b.invokeSucceeds env a = true) :
    b.invoke env a = Except.ok (b.returnValue env a) := by
  cases b with
  | static d =>
    by_cases h0 : d.mProcAddress = 0
    · unfold DelegateBase.invokeSucceeds at h
      simp [DelegateBase.invoke, StaticDelegate.invoke, h0] at h
    · simp [DelegateBase.invoke, StaticDelegate.invoke, DelegateBase.returnValue, h0]
  | member d =>
    by_cases ht : d.mThisPtr = 0
    · unfold DelegateBase.invokeSucceeds at h
      simp [DelegateBase.invoke, MemberDelegate.invoke, ht] at h
    · by_cases hm : d.mProcAddress = 0
      · unfold DelegateBase.invokeSucceeds at h
        simp [DelegateBase.invoke, MemberDelegate.invoke, ht, hm] at h
      · simp [DelegateBase.invoke, MemberDelegate.invoke, DelegateBase.returnValue, ht, hm]

/-- When every member of a prefix invokes successfully and the next
member throws, the return-ignoring bulk invoke propagates that
exception. -/
theorem invoke_fail_fast_aux (env : Env α ρ) (e : Entry) (post : DelegateSet) (a : α)
    (ex : DelegateException) (he : e.del.invoke env a = Except.error ex) :
    ∀ pre : DelegateSet, pre.all (fun x => x.del.invokeSucceeds env a) = true →
      DelegateSet.invoke env (pre ++ e :: post) a = Except.error ex := by
  intro pre
  induction pre with
  | nil =>
    intro _
    simp [DelegateSet.invoke, he]
  | cons x rest ih =>
    intro hall
    rw [List.all_cons, Bool.and_eq_true] at hall
    obtain ⟨v, hv⟩ := invoke_eq_ok_of_succeeds env x.del a hall.1
    simp [DelegateSet.invoke, List.cons_append, hv, ih hall.2]

/-- Same fail-fast behavior for the return-collecting bulk invoke, for
every intermediate output set. -/
theorem invokeCollect_fail_fast_aux [DecidableEq ρ] (env : Env α ρ) (e : Entry)
    (post : DelegateSet) (a : α) (ex : DelegateException)
    (he : e.del.invoke env a = Except.error ex) :
    ∀ pre : DelegateSet, ∀ out : Finset ρ,
      pre.all (fun x => x.del.invokeSucceeds env a) = true →
      DelegateSet.invokeCollect env (pre ++ e :: post) out a = Except.error ex := by
  intro pre
  induction pre with
  | nil =>
    intro out _
    simp [DelegateSet.invokeCollect, he]
  | cons x rest ih =>
    intro out hall
    rw [List.all_cons, Bool.and_eq_true] at hall
    obtain ⟨v, hv⟩ := invoke_eq_ok_of_succeeds env x.del a hall.1
    simp [DelegateSet.invokeCollect, List.cons_append, hv, ih (insert v out) hall.2]

/-- The trace of a bulk invocation that hits a throwing member: exactly
the successful prefix's calls are made, and the exception aborts the
loop. -/
theorem invokeCalls_fail_fast_aux (env : Env α ρ) (e : Entry) (post : DelegateSet)
    (a : α) (ex : DelegateException) (he : e.del.invoke env a = Except.error ex) :
    ∀ pre : DelegateSet,
      pre.all (fun x => x.del.invokeSucceeds env a) = true →
      (DelegateSet.invokeCalls env (pre ++ e :: post) a).1 =
        (DelegateSet.invokeCalls env pre a).1
      ∧ (DelegateSet.invokeCalls env (pre ++ e :: post) a).2 = some ex := by
  intro pre
  induction pre with
  | nil =>
    intro _
    simp [DelegateSet.invokeCalls, he]
  | cons x rest ih =>
    intro hall
    rw [List.all_cons, Bool.and_eq_true] at hall
    obtain ⟨v, hv⟩ := invoke_eq_ok_of_succeeds env x.del a hall.1
    have hr := ih hall.2
    simp [DelegateSet.invokeCalls, List.cons_append, hv, hr.1, hr.2]

/-- C8: neither bulk invoke catches or suppresses a member's exception.
If every member before `e` in the iteration succeeds and `e` throws,
both the return-ignoring and the return-collecting bulk invoke propagate
`e`'s exception to the caller, and the underlying calls performed are
exactly those of the members before `e` — no member after `e` is
invoked. -/
theorem bulk_invoke_fail_fast [DecidableEq ρ] (env : Env α ρ) (pre post : DelegateSet)
    (e : Entry) (a : α) (ex : DelegateException) (out : Finset ρ)
    (hpre : pre.all (fun x => x.del.invokeSucceeds env a) = true)
    (he : e.del.invoke env a = Except.error ex) :
    DelegateSet.invoke env (pre ++ e :: post) a = Except.error ex
    ∧ DelegateSet.invokeCollect env (pre ++ e :: post) out a = Except.error ex
    ∧ (DelegateSet.invokeCalls env (pre ++ e :: post) a).1 =
        (DelegateSet.invokeCalls env pre a).1
    ∧ (DelegateSet.invokeCalls env (pre ++ e :: post) a).2 = some ex :=
  ⟨invoke_fail_fast_aux env e post a ex he pre hpre,
   invokeCollect_fail_fast_aux env e post a ex he pre out hpre,
   (invokeCalls_fail_fast_aux env e post a ex he pre hpre).1,
   (invokeCalls_fail_fast_aux env e post a ex he pre hpre).2⟩

/-- Witness for `bulk_invoke_fail_fast`: the set iterates a live static
delegate, then a member delegate with a null this pointer, then another
live static delegate; both bulk invokes stop at the null delegate with
`InvalidThisPointerException`. -/
theorem bulk_invoke_fail_fast_witness :
    DelegateSet.invoke envC
      [⟨30, DelegateBase.static ⟨5⟩⟩, ⟨31, DelegateBase.member ⟨0, 7⟩⟩,
       ⟨32, DelegateBase.static ⟨4⟩⟩] 3 =
      Except.error DelegateException.invalidThisPointer
    ∧ DelegateSet.invokeCollect envC
      [⟨30, DelegateBase.static ⟨5⟩⟩, ⟨31, DelegateBase.member ⟨0, 7⟩⟩,
       ⟨32, DelegateBase.static ⟨4⟩⟩] ∅ 3 =
      Except.error DelegateException.invalidThisPointer
    ∧ (DelegateSet.invokeCalls envC
      [⟨30, DelegateBase.static ⟨5⟩⟩, ⟨31, DelegateBase.member ⟨0, 7⟩⟩,
       ⟨32, DelegateBase.static ⟨4⟩⟩] 3).1 =
      (DelegateSet.invokeCalls envC [⟨30, DelegateBase.static ⟨5⟩⟩] 3).1 :=
  ⟨(bulk_invoke_fail_fast envC [⟨30, DelegateBase.static ⟨5⟩⟩]
      [⟨32, DelegateBase.static ⟨4⟩⟩] ⟨31, DelegateBase.member ⟨0, 7⟩⟩ 3
      DelegateException.invalidThisPointer ∅ (by decide) rfl).1,
   (bulk_invoke_fail_fast envC [⟨30, DelegateBase.static ⟨5⟩⟩]
      [⟨32, DelegateBase.static ⟨4⟩⟩] ⟨31, DelegateBase.member ⟨0, 7⟩⟩ 3
      DelegateException.invalidThisPointer ∅ (by decide) rfl).2.1,
   (bulk_invoke_fail_fast envC [⟨30, DelegateBase.static ⟨5⟩⟩]
      [⟨32, DelegateBase.static ⟨4⟩⟩] ⟨31, DelegateBase.member ⟨0, 7⟩⟩ 3
      DelegateException.invalidThisPointer ∅ (by decide) rfl).2.2.1⟩

/-- When every member invokes successfully, the collecting invoke returns
the initial output set united with the members' return values. -/
theorem invokeCollect_ok_aux [DecidableEq ρ] (env : Env α ρ) (a : α) :
    ∀ (s : DelegateSet) (out : Finset ρ),
      s.all (fun x => x.del.invokeSucceeds env a) = true →
      DelegateSet.invokeCollect env s out a =
        Except.ok (out ∪ (s.map fun x => x.del.returnValue env a).toFinset) := by
  intro s
  induction s with
  | nil =>
    intro out _
    simp [DelegateSet.invokeCollect]
  | cons x rest ih =>
    intro out hall
    rw [List.all_cons, Bool.and_eq_true] at hall
    have hv := invoke_eq_ok_returnValue env x.del a hall.1
    simp only [DelegateSet.invokeCollect, hv]
    rw [ih (insert (x.del.returnValue env a) out) hall.2]
    congr 1
    ext y
    simp only [Finset.mem_union, Finset.mem_insert, List.mem_toFinset, List.map_cons,
      List.mem_cons]
    tauto

/-- C9 (amended): when every member invokes successfully, the collecting
invoke — whose output parameter is a `std::set`, hence duplicate
collapsing — fills an initially empty output with the members' return
values, and its final size is the number of distinct return values. -/
theorem invokeCollect_distinct_count [DecidableEq ρ] (env : Env α ρ) (s : DelegateSet)
    (a : α) (h : s.all (fun x => x.del.invokeSucceeds env a) = true) :
    DelegateSet.invokeCollect env s ∅ a =
      Except.ok ((s.map fun x => x.del.returnValue env a).toFinset)
    ∧ ((s.map fun x => x.del.returnValue env a).toFinset).card =
      ((s.map fun x => x.del.returnValue env a).dedup).length := by
  refine ⟨?_, List.card_toFinset _⟩
  rw [invokeCollect_ok_aux env a s ∅ h, Finset.empty_union]

/-- Witness for `invokeCollect_distinct_count`: a static delegate
returning 8 and a member delegate returning 713 fill the output with
both values. -/
theorem invokeCollect_distinct_count_witness :
    DelegateSet.invokeCollect envC
      [⟨40, DelegateBase.static ⟨5⟩⟩, ⟨41, DelegateBase.member ⟨1, 7⟩⟩] ∅ 3 =
      Except.ok (([⟨40, DelegateBase.static ⟨5⟩⟩, ⟨41, DelegateBase.member ⟨1, 7⟩⟩] :
        DelegateSet).map fun x => x.del.returnValue envC 3).toFinset :=
  (invokeCollect_distinct_count envC
    [⟨40, DelegateBase.static ⟨5⟩⟩, ⟨41, DelegateBase.member ⟨1, 7⟩⟩] 3 (by decide)).1

/-- C9 counterexample: the collecting invoke never preserves duplicates.
Two distinct set members whose targets both return 8 invoke successfully,
yet the output's final size is 1, not the member count 2 — there is no
order-preserving, duplicate-keeping output mode. -/
theorem invokeCollect_collapses_duplicates :
    DelegateSet.invokeCollect envC
      [⟨50, DelegateBase.static ⟨5⟩⟩, ⟨51, DelegateBase.static ⟨5⟩⟩] ∅ 3 =
      Except.ok {8}
    ∧ ({8} : Finset Nat).card = 1
    ∧ ([⟨50, DelegateBase.static ⟨5⟩⟩, ⟨51, DelegateBase.static ⟨5⟩⟩] :
        DelegateSet).length = 2
    ∧ ([⟨50, DelegateBase.static ⟨5⟩⟩, ⟨51, DelegateBase.static ⟨5⟩⟩] :
        DelegateSet).all (fun x => x.del.invokeSucceeds envC 3) = true := by
  refine ⟨?_, rfl, rfl, by decide⟩
  rfl

end EasyDelegate
